import Mathlib

/-
Verification of the batch orchestration subsystem of UnifiedMarkdown:
file discovery (FileDiscoveryService), conversion state tracking
(ConversionStateService), process management (ProcessManagerService),
scan caching (ScanCacheService) and exclusion matching (ExclusionService).
JavaScript strings are modelled as Lean `String`, timestamps (`Date`) as
`Nat` milliseconds, `Map` as association lists preserving insertion order,
and thrown exceptions as `Except`.
-/

/- ===== String helpers (models of the JS string operations used) ===== -/

/-- Model of `s.replace(/\\/g, '/')`: replace every backslash with a slash. -/
def normSlashes (s : String) : String :=
  String.mk (s.data.map (fun c => if c = '\\' then '/' else c))

/-- Model of `s.toLowerCase()` (ASCII case folding). -/
def lowerStr (s : String) : String :=
  String.mk (s.data.map Char.toLower)

/-- `listStartsWith s p` is true when the char list `p` is a leading part of `s`. -/
def listStartsWith : List Char → List Char → Bool
  | _, [] => true
  | [], _ :: _ => false
  | c :: cs, d :: ds => c == d && listStartsWith cs ds

/-- Model of `s.startsWith(p)`. -/
def strStartsWith (s p : String) : Bool :=
  listStartsWith s.data p.data

/-- Model of `s.endsWith(p)`. -/
def strEndsWith (s p : String) : Bool :=
  listStartsWith s.data.reverse p.data.reverse

/-- Split a char list at every occurrence of `sep`; `cur` is the reversed
current chunk. Model of `String.prototype.split` with a one-char separator. -/
def splitAux (sep : Char) : List Char → List Char → List String
  | [], cur => [String.mk cur.reverse]
  | c :: rest, cur =>
      if c = sep then String.mk cur.reverse :: splitAux sep rest []
      else splitAux sep rest (c :: cur)

/-- Split a string on a single-character separator. -/
def splitOnChar (sep : Char) (s : String) : List String :=
  splitAux sep s.data []

/-- Join a list of strings with a separator (model of `Array.prototype.join`). -/
def joinWith (sep : String) : List String → String
  | [] => ""
  | [x] => x
  | x :: y :: xs => x ++ sep ++ joinWith sep (y :: xs)


/- ===== JS Map model: insertion-ordered association lists ===== -/

/-- `Map.prototype.get`. -/
def assocLookup {α : Type} (l : List (String × α)) (k : String) : Option α :=
  (l.find? (fun e => e.1 == k)).map Prod.snd

/-- `Map.prototype.set`: replace in place when the key exists, else append. -/
def assocSet {α : Type} : List (String × α) → String → α → List (String × α)
  | [], key, v => [(key, v)]
  | e :: rest, key, v =>
      if e.1 == key then (key, v) :: rest else e :: assocSet rest key v

/- ===== ExclusionService (src/orchestrator/ui/services/ExclusionService.ts) ===== -/

/-- The `type` field of an ExclusionRule: `'file' | 'directory' | 'pattern'`. -/
inductive RuleType where
  | file
  | directory
  | pattern
deriving DecidableEq

/-- ExclusionRule from core/interfaces/IConfig: id, pattern, type, scope, createdAt. -/
structure ExclusionRuleM where
  id : String
  pattern : String
  type : RuleType
  scope : String
  createdAt : String
deriving DecidableEq

/--
Interpreter for the regular expression that `ExclusionService.matchGlobPattern`
compiles a glob pattern to.  The source escapes every regex metacharacter of
the pattern, then rewrites `**/` to `(?:.*/)?`, a trailing `**` to `.*`, any
other `**` to `.*`, `*` to `[^/]*` and `?` to `[^/]`, anchors the result with
`^...$` and tests it case-insensitively.  `globGo fuel p s` decides whether the
path chars `s` match the pattern chars `p` under exactly those semantics;
`fuel` bounds the recursion (every call strictly shortens the pattern, so any
fuel above the pattern length is sufficient).
-/
def globGo : Nat → List Char → List Char → Bool
  | _, [], s => s.isEmpty
  | fuel+1, '*' :: '*' :: '/' :: ps, s =>
      globGo fuel ps s ||
      (List.range s.length).any (fun i =>
        ((s.drop i).head? == some '/') && globGo fuel ps (s.drop (i+1)))
  | _+1, ['*', '*'], _ => true
  | fuel+1, '*' :: '*' :: ps, s =>
      (List.range (s.length+1)).any (fun i => globGo fuel ps (s.drop i))
  | fuel+1, '*' :: ps, s =>
      (List.range (s.length+1)).any (fun i =>
        (s.take i).all (fun c => c != '/') && globGo fuel ps (s.drop i))
  | fuel+1, '?' :: ps, s =>
      (match s with
       | [] => false
       | c :: rest => (c != '/') && globGo fuel ps rest)
  | fuel+1, c :: ps, s =>
      (match s with
       | [] => false
       | d :: rest => (c.toLower == d.toLower) && globGo fuel ps rest)
  | 0, _, _ => false

/-- Model of `ExclusionService.matchGlobPattern`: normalize both path and
pattern to forward slashes, then match the compiled pattern against the whole
path, case-insensitively. -/
def matchGlobPattern (filePath pattern : String) : Bool :=
  let np := (normSlashes filePath).data
  let pp := (normSlashes pattern).data
  globGo (pp.length + 1) pp np

/-- Model of `ExclusionService.matchesRule` (the path argument is already
normalized to forward slashes by `getMatchingRule`). -/
def matchesRule (filePath : String) (rule : ExclusionRuleM) : Bool :=
  let normalizedPattern := normSlashes rule.pattern
  match rule.type with
  | RuleType.file => lowerStr filePath == lowerStr normalizedPattern
  | RuleType.directory =>
      let lowerPath := lowerStr filePath
      let lowerPat := lowerStr normalizedPattern
      strStartsWith lowerPath (lowerPat ++ "/") || lowerPath == lowerPat
  | RuleType.pattern => matchGlobPattern filePath rule.pattern

/-- Model of `ExclusionService.getRulesForScope`. -/
def getRulesForScope (rules : List ExclusionRuleM) (scope : String) :
    List ExclusionRuleM :=
  rules.filter (fun r => r.scope == "global" || r.scope == scope)

/-- Model of `ExclusionService.getMatchingRule`: first rule in insertion
order that matches the normalized path. -/
def getMatchingRule (rules : List ExclusionRuleM) (filePath : String)
    (rootPath : Option String) : Option ExclusionRuleM :=
  let normalizedPath := normSlashes filePath
  let scopedRules := match rootPath with
    | some rp => getRulesForScope rules rp
    | none => rules
  scopedRules.find? (fun r => matchesRule normalizedPath r)

/- ===== FileDiscoveryService data model (src/orchestrator/services/FileDiscoveryService.ts) ===== -/

/-- DiscoveredFile: a discovered convertible file (timestamps as Nat ms). -/
structure DiscoveredFileM where
  path : String
  extension : String
  size : Nat
  modifiedAt : Nat
  hasMarkdown : Bool
  markdownPath : String
deriving DecidableEq

/-- Whether an exclusion-matcher call concerns a file or a directory. -/
inductive EntryKind where
  | file
  | directory
deriving DecidableEq

/-- ExclusionRuleInfo: the rule reported inside an ExclusionMatch. -/
structure ExclusionRuleInfoM where
  source : String
  type : String
  pattern : String
  scope : Option String
  id : Option String
deriving DecidableEq

/-- ExclusionMatch: a matched rule plus a human-readable reason. -/
structure ExclusionMatchM where
  rule : ExclusionRuleInfoM
  reason : String
deriving DecidableEq

/-- ExcludedItem: an ExclusionMatch tagged with the excluded path and kind. -/
structure ExcludedItemM where
  path : String
  type : EntryKind
  rule : ExclusionRuleInfoM
  reason : String
deriving DecidableEq

/-- ScanResult: aggregate of one directory walk. -/
structure ScanResultM where
  files : List DiscoveredFileM
  pending : List DiscoveredFileM
  converted : List DiscoveredFileM
  totalScanned : Nat
  directoriesScanned : Nat
  errors : List String
  excluded : List ExcludedItemM
deriving DecidableEq

/-- The empty ScanResult that `scan` starts from. -/
def emptyScanResult : ScanResultM :=
  { files := [], pending := [], converted := [], totalScanned := 0,
    directoriesScanned := 0, errors := [], excluded := [] }

/- ===== ScanCacheService (src/orchestrator/ui/services/ScanCacheService.ts) ===== -/

/-- One step of Node's `normalizeString`: fold a path segment into the
accumulated component list, resolving `.` and `..`. -/
def normStep (allowAboveRoot : Bool) (acc : List String) (part : String) :
    List String :=
  if part == "" || part == "." then acc
  else if part == ".." then
    (match acc.getLast? with
     | some lastSeg =>
         if lastSeg ≠ ".." then acc.dropLast
         else if allowAboveRoot then acc ++ [".."] else acc
     | none => if allowAboveRoot then [".."] else [])
  else acc ++ [part]

/-- Model of Node's `path.posix.normalize`: collapse repeated separators and
resolve `.` / `..` segments, preserving a leading or trailing slash. -/
def pathNormalize (p : String) : String :=
  if p == "" then "."
  else
    let isAbs := strStartsWith p "/"
    let trailing := strEndsWith p "/"
    let comps := (splitOnChar '/' p).foldl (normStep (!isAbs)) []
    let body := joinWith "/" comps
    if body == "" then
      (if isAbs then "/" else if trailing then "./" else ".")
    else
      let body2 := if trailing then body ++ "/" else body
      (if isAbs then "/" ++ body2 else body2)

/-- CachedScan: a scan result with cache metadata. -/
structure CachedScanM where
  rootPath : String
  result : ScanResultM
  scannedAt : Nat
  expiresAt : Nat
deriving DecidableEq

/-- The in-memory cache: a JS `Map` as an insertion-ordered association list. -/
abbrev ScanCache := List (String × CachedScanM)

/-- `Map.prototype.delete`. -/
def cacheErase (cache : ScanCache) (key : String) : ScanCache :=
  cache.filter (fun e => e.1 != key)

/-- Default TTL in milliseconds: `ttlMinutes = 5` times 60 * 1000. -/
def defaultTtlMs : Nat := 5 * 60 * 1000

/-- Model of `ScanCacheService.get`: lazily evicts an expired entry.  Returns
the looked-up value together with the cache state after the call. -/
def cacheGet (cache : ScanCache) (rootPath : String) (now : Nat) :
    Option CachedScanM × ScanCache :=
  let normalizedPath := pathNormalize rootPath
  match assocLookup cache normalizedPath with
  | none => (none, cache)
  | some cached =>
      if now > cached.expiresAt then (none, cacheErase cache normalizedPath)
      else (some cached, cache)

/-- Model of `ScanCacheService.set`. -/
def cacheSet (cache : ScanCache) (rootPath : String) (result : ScanResultM)
    (now : Nat) (ttlMs : Option Nat) : ScanCache :=
  let normalizedPath := pathNormalize rootPath
  let ttl := ttlMs.getD defaultTtlMs
  let cached : CachedScanM :=
    { rootPath := normalizedPath, result := result,
      scannedAt := now, expiresAt := now + ttl }
  assocSet cache normalizedPath cached

/-- Model of `ScanCacheService.invalidateForFile`: delete every entry whose
key is a leading substring of the normalized file path; return the number of
entries removed together with the remaining cache. -/
def invalidateForFile (cache : ScanCache) (filePath : String) :
    Nat × ScanCache :=
  let normalizedFile := pathNormalize filePath
  ((cache.filter (fun e => strStartsWith normalizedFile e.1)).length,
   cache.filter (fun e => !(strStartsWith normalizedFile e.1)))

/- ===== ConversionStateService (src/orchestrator/services/ConversionStateService.ts) ===== -/

/-- ConversionStatus: `'pending' | 'in-progress' | 'completed' | 'failed' | 'skipped'`. -/
inductive ConversionStatus where
  | pending
  | inProgress
  | completed
  | failed
  | skipped
deriving DecidableEq

/-- The terminal statuses, exactly the test on line 504 of the source:
`status === 'completed' || status === 'failed' || status === 'skipped'`. -/
def isTerminal : ConversionStatus → Bool
  | ConversionStatus.completed => true
  | ConversionStatus.failed => true
  | ConversionStatus.skipped => true
  | _ => false

/-- ConversionRecord: one file's conversion lifecycle within a batch. -/
structure ConversionRecord where
  filePath : String
  status : ConversionStatus
  startedAt : Option Nat
  completedAt : Option Nat
  error : Option String
  outputPath : Option String
  stdout : Option String
  stderr : Option String
  duration : Option Nat
deriving DecidableEq

/-- The record `addFile` creates: status `pending`, everything else unset. -/
def freshRecord (filePath : String) : ConversionRecord :=
  { filePath := filePath, status := ConversionStatus.pending,
    startedAt := none, completedAt := none, error := none,
    outputPath := none, stdout := none, stderr := none, duration := none }

/-- The optional `details` argument of `updateStatus`. -/
structure UpdateDetails where
  error : Option String
  outputPath : Option String
  stdout : Option String
  stderr : Option String
  duration : Option Nat
deriving DecidableEq

/-- A `details` argument with no field provided. -/
def noDetails : UpdateDetails :=
  { error := none, outputPath := none, stdout := none,
    stderr := none, duration := none }

/-- JS truthiness of an optional string (`undefined` and `""` are falsy). -/
def truthyStr : Option String → Bool
  | some s => s != ""
  | none => false

/-- JS truthiness of an optional number (`undefined` and `0` are falsy). -/
def truthyNat : Option Nat → Bool
  | some n => n != 0
  | none => false

/-- The record-level effect of `ConversionStateService.updateStatus` (lines
498-526 of the source).  The source mutates the record with one statement per
field, each guarded by a condition on the inputs only, so the sequence of
mutations is written here fieldwise: `record.status = status` always;
`startedAt = new Date()` exactly when the new status is `in-progress`;
`completedAt = new Date()` exactly when it is terminal; and each
`if (details?.field) record.field = details.field` merge, whose guard is JS
truthiness (so an absent field, an empty string, or a zero duration leaves
the previous value in place). -/
def applyUpdate (record : ConversionRecord) (status : ConversionStatus)
    (details : UpdateDetails) (now : Nat) : ConversionRecord :=
  { filePath := record.filePath,
    status := status,
    startedAt := if status = ConversionStatus.inProgress then some now
                 else record.startedAt,
    completedAt := if isTerminal status then some now else record.completedAt,
    error := if truthyStr details.error then details.error else record.error,
    outputPath := if truthyStr details.outputPath then details.outputPath
                  else record.outputPath,
    stdout := if truthyStr details.stdout then details.stdout else record.stdout,
    stderr := if truthyStr details.stderr then details.stderr else record.stderr,
    duration := if truthyNat details.duration then details.duration
                else record.duration }

/-- BatchState: one batch job with its per-file records (a JS `Map`). -/
structure BatchState where
  jobId : String
  createdAt : Nat
  rootPath : String
  records : List (String × ConversionRecord)
deriving DecidableEq

/-- The whole store: jobId to BatchState, insertion ordered. -/
abbrev OrchestratorState := List (String × BatchState)

/-- The two errors `updateStatus` can throw. -/
inductive UpdateError where
  | batchNotFound (jobId : String)
  | fileNotFound (filePath : String)
deriving DecidableEq

/-- Model of `ConversionStateService.createBatch`. -/
def createBatch (st : OrchestratorState) (jobId rootPath : String)
    (now : Nat) : OrchestratorState :=
  assocSet st jobId
    { jobId := jobId, createdAt := now, rootPath := rootPath, records := [] }

/-- Model of `ConversionStateService.addFile`. -/
def addFile (st : OrchestratorState) (jobId filePath : String) :
    Except UpdateError OrchestratorState :=
  match assocLookup st jobId with
  | none => Except.error (UpdateError.batchNotFound jobId)
  | some batch =>
      Except.ok (assocSet st jobId
        { batch with records := assocSet batch.records filePath (freshRecord filePath) })

/-- Model of `ConversionStateService.updateStatus`: throws when the batch or
the file is unknown, otherwise rewrites the record via `applyUpdate`. -/
def updateStatus (st : OrchestratorState) (jobId filePath : String)
    (status : ConversionStatus) (details : UpdateDetails) (now : Nat) :
    Except UpdateError OrchestratorState :=
  match assocLookup st jobId with
  | none => Except.error (UpdateError.batchNotFound jobId)
  | some batch =>
      match assocLookup batch.records filePath with
      | none => Except.error (UpdateError.fileNotFound filePath)
      | some record =>
          let newRecord := applyUpdate record status details now
          Except.ok (assocSet st jobId
            { batch with records := assocSet batch.records filePath newRecord })

/-- Fold a sequence of `updateStatus` effects over one record. -/
def applyUpdates (record : ConversionRecord)
    (updates : List (ConversionStatus × UpdateDetails × Nat)) : ConversionRecord :=
  updates.foldl (fun r u => applyUpdate r u.1 u.2.1 u.2.2) record

/- ===== ProcessManagerService (src/orchestrator/services/ProcessManagerService.ts) ===== -/

/-- `MAX_FILE_SIZE = 25 * 1024 * 1024` (25MB). -/
def MAX_FILE_SIZE : Nat := 25 * 1024 * 1024

/-- ConversionResult of a single file conversion. -/
structure ConversionResult where
  filePath : String
  success : Bool
  outputPath : Option String
  error : Option String
  duration : Nat
  stdout : String
  stderr : String
deriving DecidableEq

/-- What the spawned child process did: either the `close` event fired with an
exit code (`null` when killed by a signal) and the accumulated stdout/stderr,
or the `error` event fired (spawn failure) with a message. -/
inductive ProcOutcome where
  | closed (code : Option Int) (stdout stderr : String)
  | spawnFailed (message : String) (stdout stderr : String)
deriving DecidableEq

/-- Template-literal rendering of the exit code (`null` prints as "null"). -/
def codeString : Option Int → String
  | some n => toString n
  | none => "null"

/-- Model of `(file.size / (1024 * 1024)).toFixed(1)`: the size in MB rounded
to one decimal digit (Nat rounding stands in for the float rounding; the
claims only depend on the message being the size-limit message). -/
def formatSizeMB (size : Nat) : String :=
  let tenths := (size * 10 + 524288) / 1048576
  toString (tenths / 10) ++ "." ++ toString (tenths % 10)

/-- The size-limit error message built on lines 90-91 of the source. -/
def sizeLimitError (size : Nat) : String :=
  "File size (" ++ formatSizeMB size ++ "MB) exceeds maximum allowed size of 25MB"

/-- Model of `ProcessManagerService.convertFile`.  The promise always
resolves, so the model is a total function; the second component records
whether a subprocess was spawned.  `elapsed` is the measured wall-clock
duration (`Date.now() - startTime`). -/
def convertFile (file : DiscoveredFileM) (outcome : ProcOutcome)
    (elapsed : Nat) : ConversionResult × Bool :=
  if file.size > MAX_FILE_SIZE then
    ({ filePath := file.path, success := false, outputPath := none,
       error := some (sizeLimitError file.size), duration := elapsed,
       stdout := "", stderr := "" }, false)
  else
    match outcome with
    | ProcOutcome.closed code stdout stderr =>
        if code = some 0 then
          ({ filePath := file.path, success := true,
             outputPath := some (file.path ++ ".md"), error := none,
             duration := elapsed, stdout := stdout, stderr := stderr }, true)
        else
          let err := if stderr ≠ "" then stderr
                     else if stdout ≠ "" then stdout
                     else "Process exited with code " ++ codeString code
          ({ filePath := file.path, success := false, outputPath := none,
             error := some err, duration := elapsed,
             stdout := stdout, stderr := stderr }, true)
    | ProcOutcome.spawnFailed msg stdout stderr =>
        ({ filePath := file.path, success := false, outputPath := none,
           error := some msg, duration := elapsed,
           stdout := stdout, stderr := stderr }, true)

/-- The sequence of `updateStatus` calls `convertBatch.processNext` performs
for one dequeued file: first `in-progress` with no details, then the terminal
status derived from the ConversionResult, with all detail fields of the
result passed along (stdout, stderr and duration are always present). -/
def batchFileUpdates (file : DiscoveredFileM) (outcome : ProcOutcome)
    (elapsed : Nat) : List (ConversionStatus × UpdateDetails) :=
  let result := (convertFile file outcome elapsed).1
  [(ConversionStatus.inProgress, noDetails),
   ((if result.success then ConversionStatus.completed else ConversionStatus.failed),
    { error := result.error, outputPath := result.outputPath,
      stdout := some result.stdout, stderr := some result.stderr,
      duration := some result.duration })]

/- ===== FileDiscoveryService walk (src/orchestrator/services/FileDiscoveryService.ts) ===== -/

/-- IMAGE_EXTENSIONS from core/constants/fileTypes. -/
def IMAGE_EXTENSIONS : List String :=
  ["png", "jpg", "jpeg", "webp", "gif", "bmp", "tiff", "tif", "svg"]

/-- DOCUMENT_EXTENSIONS = PDF ++ DOCX ++ PPTX. -/
def DOCUMENT_EXTENSIONS : List String :=
  ["pdf", "docx", "ppt", "pptx"]

/-- ALL_SUPPORTED_EXTENSIONS = images ++ documents. -/
def ALL_SUPPORTED_EXTENSIONS : List String :=
  IMAGE_EXTENSIONS ++ DOCUMENT_EXTENSIONS

/-- Model of `isSupportedExtension`. -/
def isSupportedExtension (ext : String) : Bool :=
  ALL_SUPPORTED_EXTENSIONS.contains ext

/-- DEFAULT_EXCLUDE_DIRS. -/
def DEFAULT_EXCLUDE_DIRS : List String :=
  ["node_modules", ".git", ".svn", "__pycache__", ".venv", "venv",
   ".idea", ".vscode", "$RECYCLE.BIN", "$Recycle.Bin",
   "System Volume Information"]

/-- Model of `FOUND_DIR_PATTERN = /^found\.\d+$/i`. -/
def isFoundDir (name : String) : Bool :=
  let l := lowerStr name
  strStartsWith l "found." && !(l.data.drop 6).isEmpty &&
    (l.data.drop 6).all Char.isDigit

/-- Model of Node's `path.basename` for the forward-slash paths used here. -/
def basenameOf (p : String) : String :=
  (splitOnChar '/' p).getLast?.getD p

/-- Index of the last `.` in a char list, if any. -/
def lastDotIndex (cs : List Char) : Option Nat :=
  ((List.range cs.length).filter (fun i => cs.get? i == some '.')).getLast?

/-- Model of Node's `path.extname` (as a char list, including the dot):
empty when the basename has no dot or only a leading dot. -/
def extnameChars (p : String) : List Char :=
  let b := (basenameOf p).data
  match lastDotIndex b with
  | none => []
  | some 0 => []
  | some i => b.drop i

/-- `path.extname(filePath).toLowerCase().slice(1)` from `processFile`. -/
def fileExtension (p : String) : String :=
  String.mk (((extnameChars p).map Char.toLower).drop 1)

/-- ScanOptions after the constructor applied its defaults. -/
structure ScanOptionsM where
  recursive : Bool
  extensions : List String
  maxDepth : Option Nat
  excludeDirs : List String
  exclusionMatcher : Option (String → EntryKind → Option ExclusionMatchM)

/-- The options produced by `new FileDiscoveryService({})`
(`maxDepth = Infinity` is modelled as `none`). -/
def defaultScanOptions : ScanOptionsM :=
  { recursive := true, extensions := ALL_SUPPORTED_EXTENSIONS,
    maxDepth := none, excludeDirs := DEFAULT_EXCLUDE_DIRS,
    exclusionMatcher := none }

/-- The filesystem under a path, as the scan observes it: files carry the
stat data the scan reads (`statError` models `fs.statSync` throwing with that
message), directories carry their child entries (`readError` models
`fs.readdirSync` throwing with that message). -/
inductive FsNode where
  | file (size : Nat) (mtime : Nat) (hasMarkdown : Bool) (statError : Option String)
  | dir (readError : Option String) (entries : List (String × FsNode))

/-- Model of `FileDiscoveryService.processFile`: skip Office lock files,
unsupported or markdown extensions; stat the file (which may throw) and
build the DiscoveredFile. -/
def processFileM (opts : ScanOptionsM) (filePath : String) (size mtime : Nat)
    (hasMd : Bool) (statError : Option String) :
    Except String (Option DiscoveredFileM) :=
  let fileName := basenameOf filePath
  if strStartsWith fileName "~$" then Except.ok none
  else
    let ext := fileExtension filePath
    if !(opts.extensions.contains ext) then Except.ok none
    else if !(isSupportedExtension ext) then Except.ok none
    else if ext == "md" then Except.ok none
    else
      match statError with
      | some msg => Except.error msg
      | none =>
          Except.ok (some
            { path := filePath, extension := ext, size := size,
              modifiedAt := mtime, hasMarkdown := hasMd,
              markdownPath := filePath ++ ".md" })

/-- Model of `FileDiscoveryService.getDirectoryExclusionMatch`: the custom
matcher wins, then the `found.NNN` built-in, then the case-insensitive
excluded-directory-name list. -/
def getDirectoryExclusionMatch (opts : ScanOptionsM)
    (dirName fullPath : String) : Option ExclusionMatchM :=
  match opts.exclusionMatcher.bind (fun m => m fullPath EntryKind.directory) with
  | some customMatch => some customMatch
  | none =>
      if isFoundDir dirName then
        some { rule := { source := "default", type := "pattern",
                         pattern := "found.*", scope := none, id := none },
               reason := "Built-in exclusion for Windows recovered files directories (found.000, found.001, ...)" }
      else
        match opts.excludeDirs.find? (fun ex => lowerStr ex == lowerStr dirName) with
        | some matched =>
            some { rule := { source := "default", type := "directory",
                             pattern := matched, scope := none, id := none },
                   reason := "Built-in exclusion for \"" ++ matched ++ "\" directories" }
        | none => none

/-- Model of `FileDiscoveryService.getFileExclusionMatch`. -/
def getFileExclusionMatch (opts : ScanOptionsM) (filePath : String) :
    Option ExclusionMatchM :=
  opts.exclusionMatcher.bind (fun m => m filePath EntryKind.file)

/-- Handling of one directory entry inside the `scanDirectory` loop; `recur`
is the recursive descent into a child directory (`scanDirectory(fullPath,
depth + 1, result)`).  The try/catch around the entry turns a stat failure
into an appended scan error. -/
def scanEntry (opts : ScanOptionsM)
    (recur : String → FsNode → Nat → ScanResultM → ScanResultM)
    (dirPath : String) (depth : Nat) (acc : ScanResultM)
    (name : String) (node : FsNode) : ScanResultM :=
  let fullPath := dirPath ++ "/" ++ name
  match node with
  | FsNode.dir _ _ =>
      (match getDirectoryExclusionMatch opts name fullPath with
       | some m =>
           { acc with excluded := acc.excluded ++
               [{ path := fullPath, type := EntryKind.directory,
                  rule := m.rule, reason := m.reason }] }
       | none => if opts.recursive then recur fullPath node (depth + 1) acc else acc)
  | FsNode.file size mtime hasMd statError =>
      let acc1 := { acc with totalScanned := acc.totalScanned + 1 }
      match processFileM opts fullPath size mtime hasMd statError with
      | Except.error msg =>
          { acc1 with errors := acc1.errors ++
              ["Error processing " ++ fullPath ++ ": " ++ msg] }
      | Except.ok none => acc1
      | Except.ok (some discovered) =>
          match getFileExclusionMatch opts fullPath with
          | some m =>
              { acc1 with excluded := acc1.excluded ++
                  [{ path := fullPath, type := EntryKind.file,
                     rule := m.rule, reason := m.reason }] }
          | none => { acc1 with files := acc1.files ++ [discovered] }

/-- Model of `FileDiscoveryService.scanDirectory`: depth guard, visited
counter, directory listing (a read failure is recorded as a non-fatal error
and the subtree is skipped), then the per-entry loop.  `fuel` bounds the
recursion depth; `scan` passes more fuel than the tree is deep, so the
fuel-exhausted case is never reached from `scan`. -/
def scanGo (opts : ScanOptionsM) :
    Nat → String → FsNode → Nat → ScanResultM → ScanResultM
  | 0, _, _, _, acc => acc
  | _+1, _, FsNode.file _ _ _ _, _, acc => acc
  | fuel+1, dirPath, FsNode.dir readError entries, depth, acc =>
      if (match opts.maxDepth with | some m => decide (depth > m) | none => false) then acc
      else
        let acc1 := { acc with directoriesScanned := acc.directoriesScanned + 1 }
        match readError with
        | some msg =>
            { acc1 with errors := acc1.errors ++
                ["Failed to read directory " ++ dirPath ++ ": " ++ msg] }
        | none =>
            entries.foldl
              (fun a e => scanEntry opts (scanGo opts fuel) dirPath depth a e.1 e.2)
              acc1

/-- Model of `FileDiscoveryService.scan`.  The argument `root` is what the
filesystem holds at the resolved root path (`none`: nothing); `fuel` is any
recursion bound strictly larger than the depth of the tree (the source
recursion is unbounded; every property proved below holds for every fuel, so
in particular for every sufficient one).  After the walk, the accumulated
file list is partitioned into `converted` and `pending` by `hasMarkdown`. -/
def scan (opts : ScanOptionsM) (fuel : Nat) (rootPath : String)
    (root : Option FsNode) : Except String ScanResultM :=
  match root with
  | none => Except.error ("Path does not exist: " ++ rootPath)
  | some (FsNode.file _ _ _ _) =>
      Except.error ("Path is not a directory: " ++ rootPath)
  | some (FsNode.dir readError entries) =>
      let node := FsNode.dir readError entries
      let walked := scanGo opts (fuel + 1) rootPath node 0 emptyScanResult
      Except.ok { walked with
        converted := walked.converted ++ walked.files.filter (fun f => f.hasMarkdown),
        pending := walked.pending ++ walked.files.filter (fun f => !f.hasMarkdown) }

/- ===== Concrete values used by witnesses and counterexamples ===== -/

/-- A user rule excluding the directory `node_modules` globally. -/
def nodeModulesRule : ExclusionRuleM :=
  { id := "r1", pattern := "node_modules", type := RuleType.directory,
    scope := "global", createdAt := "" }

/-- A store holding one batch `job1` with one pending record for `/r/a.pdf`. -/
def demoState : OrchestratorState :=
  [("job1",
    { jobId := "job1", createdAt := 0, rootPath := "/r",
      records := [("/r/a.pdf", freshRecord "/r/a.pdf")] })]

/-- A discovered file one byte over the 25MB ceiling. -/
def bigDemoFile : DiscoveredFileM :=
  { path := "/docs/big.pdf", extension := "pdf", size := 26214401,
    modifiedAt := 0, hasMarkdown := false, markdownPath := "/docs/big.pdf.md" }

/-- A small discovered file, below the ceiling. -/
def smallDemoFile : DiscoveredFileM :=
  { path := "/docs/a.pdf", extension := "pdf", size := 5,
    modifiedAt := 0, hasMarkdown := false, markdownPath := "/docs/a.pdf.md" }

/-- A cached scan keyed at `/root`. -/
def rootCachedScan : CachedScanM :=
  { rootPath := "/root", result := emptyScanResult, scannedAt := 0,
    expiresAt := 1000 }

/-- A cached scan keyed at `/other`. -/
def otherCachedScan : CachedScanM :=
  { rootPath := "/other", result := emptyScanResult, scannedAt := 0,
    expiresAt := 1000 }

/-- A small directory tree: two files at the root (one already converted)
and one file in a subdirectory. -/
def demoTree : FsNode :=
  FsNode.dir none
    [("a.pdf", FsNode.file 10 0 false none),
     ("b.docx", FsNode.file 5 0 true none),
     ("sub", FsNode.dir none [("c.png", FsNode.file 2 0 false none)])]

/- ===== Helper lemmas ===== -/

/-- Splitting a list by a predicate preserves total length. -/
theorem length_filter_split {α : Type} (l : List α) (p : α → Bool) :
    (l.filter p).length + (l.filter (fun a => !(p a))).length = l.length := by
  induction l with
  | nil => rfl
  | cons a t ih =>
      by_cases h : p a = true
      · simp [List.filter_cons, h]; omega
      · simp [List.filter_cons, h]; omega

/-- Looking up the key just written by `assocSet` returns the written value. -/
theorem assocLookup_assocSet {α : Type} (l : List (String × α)) (k : String)
    (v : α) : assocLookup (assocSet l k v) k = some v := by
  induction l with
  | nil => simp [assocSet, assocLookup, List.find?]
  | cons e t ih =>
      by_cases h : e.1 == k
      · simp [assocSet, h, assocLookup, List.find?]
      · simp only [assocSet, h, if_false]
        simp only [assocLookup, List.find?, h] at ih ⊢
        exact ih

/-- Through any sequence of updates, `completedAt` is set exactly when it was
already set or some update used a terminal status. -/
theorem applyUpdates_completedAt
    (updates : List (ConversionStatus × UpdateDetails × Nat))
    (r : ConversionRecord) :
    (applyUpdates r updates).completedAt.isSome = true ↔
      (r.completedAt.isSome = true ∨ ∃ u ∈ updates, isTerminal u.1 = true) := by
  induction updates generalizing r with
  | nil => simp [applyUpdates]
  | cons u t ih =>
      simp only [applyUpdates, List.foldl_cons] at ih ⊢
      rw [ih]
      by_cases h : isTerminal u.1 = true
      · simp [applyUpdate, h]
      · simp [applyUpdate, h]

/-- `scanEntry` never touches the `pending` and `converted` fields, provided
the recursive descent it is given does not either. -/
theorem scanEntry_pc (opts : ScanOptionsM)
    (recur : String → FsNode → Nat → ScanResultM → ScanResultM)
    (hrec : ∀ p n d a, ((recur p n d a).pending = a.pending ∧
                        (recur p n d a).converted = a.converted))
    (dirPath : String) (depth : Nat) (acc : ScanResultM)
    (name : String) (node : FsNode) :
    (scanEntry opts recur dirPath depth acc name node).pending = acc.pending ∧
    (scanEntry opts recur dirPath depth acc name node).converted = acc.converted := by
  unfold scanEntry
  cases node with
  | dir re es =>
      simp only
      split
      · exact ⟨rfl, rfl⟩
      · split
        · exact hrec _ _ _ _
        · exact ⟨rfl, rfl⟩
  | file size mtime hasMd statError =>
      simp only
      split <;> first | exact ⟨rfl, rfl⟩ | (split <;> exact ⟨rfl, rfl⟩)

/-- The entry loop of `scanDirectory` preserves `pending` and `converted`. -/
theorem foldl_scanEntry_pc (opts : ScanOptionsM)
    (recur : String → FsNode → Nat → ScanResultM → ScanResultM)
    (hrec : ∀ p n d a, ((recur p n d a).pending = a.pending ∧
                        (recur p n d a).converted = a.converted))
    (dirPath : String) (depth : Nat) :
    ∀ (es : List (String × FsNode)) (acc : ScanResultM),
      ((es.foldl (fun a e => scanEntry opts recur dirPath depth a e.1 e.2) acc).pending =
        acc.pending ∧
       (es.foldl (fun a e => scanEntry opts recur dirPath depth a e.1 e.2) acc).converted =
        acc.converted) := by
  intro es
  induction es with
  | nil => intro acc; exact ⟨rfl, rfl⟩
  | cons e t iht =>
      intro acc
      simp only [List.foldl_cons]
      have h1 := scanEntry_pc opts recur hrec dirPath depth acc e.1 e.2
      have h2 := iht (scanEntry opts recur dirPath depth acc e.1 e.2)
      exact ⟨h2.1.trans h1.1, h2.2.trans h1.2⟩

/-- The whole walk preserves `pending` and `converted`: only the final
partition pass of `scan` fills them. -/
theorem scanGo_pc (opts : ScanOptionsM) (fuel : Nat) :
    ∀ (dirPath : String) (node : FsNode) (depth : Nat) (acc : ScanResultM),
      (scanGo opts fuel dirPath node depth acc).pending = acc.pending ∧
      (scanGo opts fuel dirPath node depth acc).converted = acc.converted := by
  induction fuel with
  | zero => intro dirPath node depth acc; exact ⟨rfl, rfl⟩
  | succ fuel ih =>
      intro dirPath node depth acc
      cases node with
      | file a b c d => exact ⟨rfl, rfl⟩
      | dir re es =>
          unfold scanGo
          split
          · exact ⟨rfl, rfl⟩
          · cases re with
            | some msg => exact ⟨rfl, rfl⟩
            | none =>
                exact foldl_scanEntry_pc opts _
                  (fun p n d a => ih p n d a) dirPath depth es _

/-- A single `*` matches exactly the strings with no path separator. -/
theorem globGo_star (fuel : Nat) (s : List Char) :
    globGo (fuel+1) ['*'] s = s.all (fun c => c != '/') := by
  have hbase : ∀ (l : List Char), globGo fuel [] l = l.isEmpty := by
    intro l; cases fuel <;> rfl
  rw [show globGo (fuel+1) ['*'] s =
      (List.range (s.length+1)).any (fun i =>
        (s.take i).all (fun c => c != '/') && globGo fuel [] (s.drop i)) from rfl]
  rw [Bool.eq_iff_iff]
  simp only [List.any_eq_true, List.mem_range, Bool.and_eq_true, hbase]
  constructor
  · rintro ⟨i, _, htake, hdrop⟩
    simp only [List.isEmpty_iff] at hdrop
    have hlen : s.length ≤ i := by
      have hld := congrArg List.length hdrop
      simp only [List.length_drop, List.length_nil] at hld
      omega
    rwa [List.take_of_length_le hlen] at htake
  · intro hall
    refine ⟨s.length, by omega, ?_, ?_⟩
    · rwa [List.take_length]
    · simp [List.drop_length]

/- ===== Claim theorems ===== -/

/-- C1: every ScanResult returned by `scan` is partitioned exactly by
`hasMarkdown`: `files.length = pending.length + converted.length`, every file
with markdown is in `converted`, every file without is in `pending`, and the
two partitions are disjoint. -/
theorem scan_partition (opts : ScanOptionsM) (fuel : Nat) (rootPath : String)
    (root : Option FsNode) (result : ScanResultM) :
    scan opts fuel rootPath root = Except.ok result →
      result.files.length = result.pending.length + result.converted.length ∧
      (∀ f ∈ result.files, f.hasMarkdown = true → f ∈ result.converted) ∧
      (∀ f ∈ result.files, f.hasMarkdown = false → f ∈ result.pending) ∧
      (∀ f, f ∈ result.pending → f ∉ result.converted) := by
  intro h
  cases root with
  | none => simp [scan] at h
  | some node =>
      cases node with
      | file a b c d => simp [scan] at h
      | dir re es =>
          simp only [scan, Except.ok.injEq] at h
          subst h
          have hpc := scanGo_pc opts (fuel+1) rootPath (FsNode.dir re es) 0 emptyScanResult
          have hp : (scanGo opts (fuel+1) rootPath
              (FsNode.dir re es) 0 emptyScanResult).pending = [] := hpc.1
          have hc : (scanGo opts (fuel+1) rootPath
              (FsNode.dir re es) 0 emptyScanResult).converted = [] := hpc.2
          refine ⟨?_, ?_, ?_, ?_⟩
          · simp only [hp, hc, List.nil_append]
            have := length_filter_split
              (scanGo opts (fuel+1) rootPath (FsNode.dir re es) 0 emptyScanResult).files
              (fun f => f.hasMarkdown)
            omega
          · intro f hf hmd
            simp only [hc, List.nil_append, List.mem_filter]
            exact ⟨hf, hmd⟩
          · intro f hf hmd
            simp only [hp, List.nil_append, List.mem_filter]
            exact ⟨hf, by simp [hmd]⟩
          · intro f hfp hfc
            simp only [hp, hc, List.nil_append, List.mem_filter] at hfp hfc
            simp [hfc.2] at hfp

/-- C1 witness: the partition properties evaluated on a concrete tree with a
pending file, a converted file and a pending file in a subdirectory. -/
theorem scan_partition_witness :
    ∃ result, scan defaultScanOptions 5 "/root" (some demoTree) = Except.ok result ∧
      result.files.length = result.pending.length + result.converted.length ∧
      (∀ f, f ∈ result.pending → f ∉ result.converted) :=
  ⟨_, rfl,
   (scan_partition defaultScanOptions 5 "/root" (some demoTree) _ rfl).1,
   (scan_partition defaultScanOptions 5 "/root" (some demoTree) _ rfl).2.2.2⟩

/-- C2 counterexample: a file one byte over the 25MB ceiling is transitioned
to `in-progress` by the batch loop before `convertFile` performs the size
check, contradicting the claim that it never reaches `in-progress` (its
terminal status is `failed`, as the second component shows). -/
theorem oversized_inProgress_cex :
    bigDemoFile.size > MAX_FILE_SIZE ∧
    (batchFileUpdates bigDemoFile (ProcOutcome.closed (some 0) "" "") 7).map Prod.fst =
      [ConversionStatus.inProgress, ConversionStatus.failed] := by
  exact ⟨by decide, by decide⟩

/-- C2 amended: an oversized file is transitioned to `in-progress` when the
batch loop dequeues it, but no subprocess is spawned for it, its result is a
failure carrying the size-limit error message, and its terminal status is
`failed` (never `completed`). -/
theorem oversized_file_spec :
    ∀ (file : DiscoveredFileM) (outcome : ProcOutcome) (elapsed : Nat),
      file.size > MAX_FILE_SIZE →
      (convertFile file outcome elapsed).2 = false ∧
      (convertFile file outcome elapsed).1.error = some (sizeLimitError file.size) ∧
      (convertFile file outcome elapsed).1.success = false ∧
      (batchFileUpdates file outcome elapsed).map Prod.fst =
        [ConversionStatus.inProgress, ConversionStatus.failed] := by
  intro file outcome elapsed hsize
  refine ⟨?_, ?_, ?_, ?_⟩ <;>
    simp [convertFile, batchFileUpdates, hsize]

/-- C2 witness: the amended statement applied to the concrete oversized
file. -/
theorem oversized_file_spec_witness :
    bigDemoFile.size > MAX_FILE_SIZE ∧
    (convertFile bigDemoFile (ProcOutcome.closed (some 0) "" "") 7).2 = false :=
  ⟨by decide,
   (oversized_file_spec bigDemoFile (ProcOutcome.closed (some 0) "" "") 7 (by decide)).1⟩

/-- C3 counterexample: starting from a pending record, `updateStatus` to
`completed` followed by `updateStatus` back to `pending` leaves the record
with status `pending` (resurrected from a terminal status with no new record
created) while `completedAt` is still set — refuting both the monotonicity
claim and the "completedAt iff terminal" claim. -/
theorem record_resurrection_cex :
    (updateStatus demoState "job1" "/r/a.pdf"
        ConversionStatus.completed noDetails 5).toOption.bind (fun st1 =>
      (updateStatus st1 "job1" "/r/a.pdf"
          ConversionStatus.pending noDetails 9).toOption.bind (fun st2 =>
        (assocLookup st2 "job1").bind (fun b => assocLookup b.records "/r/a.pdf"))) =
      some { filePath := "/r/a.pdf", status := ConversionStatus.pending,
             startedAt := none, completedAt := some 5, error := none,
             outputPath := none, stdout := none, stderr := none, duration := none } ∧
    isTerminal ConversionStatus.completed = true ∧
    (isTerminal ConversionStatus.pending = false ∧
     (some 5 : Option Nat).isSome = true) := by
  exact ⟨by decide, by decide, by decide, by decide⟩

/-- C3 amended: `updateStatus` assigns the new status unconditionally, so the
last update always determines the status (a terminal record can be returned
to `pending` or `in-progress` by a later call); and `completedAt` is set if
and only if some update performed so far used a terminal status (it is
stamped on each transition into a terminal status and never cleared). -/
theorem updateStatus_unguarded_completedAt :
    (∀ (fp : String) (prior : List (ConversionStatus × UpdateDetails × Nat))
        (u : ConversionStatus × UpdateDetails × Nat),
        (applyUpdates (freshRecord fp) (prior ++ [u])).status = u.1) ∧
    (∀ (fp : String) (updates : List (ConversionStatus × UpdateDetails × Nat)),
        (applyUpdates (freshRecord fp) updates).completedAt.isSome = true ↔
          ∃ u ∈ updates, isTerminal u.1 = true) := by
  constructor
  · intro fp prior u
    simp [applyUpdates, List.foldl_append]
    rfl
  · intro fp updates
    rw [applyUpdates_completedAt]
    simp [freshRecord]

/-- C4 counterexample: a provided but zero `duration` detail is not merged —
after a first update sets `duration` to 5, a terminal update that provides
`duration := 0` leaves the stored duration at 5, contradicting "merges any
provided detail fields". -/
theorem updateStatus_merge_cex :
    (updateStatus demoState "job1" "/r/a.pdf" ConversionStatus.inProgress
        { error := none, outputPath := none, stdout := none, stderr := none,
          duration := some 5 } 1).toOption.bind (fun st1 =>
      (updateStatus st1 "job1" "/r/a.pdf" ConversionStatus.completed
          { error := none, outputPath := none, stdout := none, stderr := none,
            duration := some 0 } 2).toOption.bind (fun st2 =>
        (assocLookup st2 "job1").bind (fun b =>
          (assocLookup b.records "/r/a.pdf").map (fun r => r.duration)))) =
      some (some 5) ∧
    some (some 5) ≠ some (some (0 : Nat)) := by
  exact ⟨by decide, by decide⟩

/-- C4 amended: `updateStatus` throws the batch-not-found error when the jobId
is unknown and the file-not-found error when the filePath is not registered;
otherwise it rewrites exactly the addressed record, setting `startedAt`
exactly when the new status is `in-progress` and `completedAt` exactly when
it is terminal, and merging a provided detail field only when it is truthy
(a non-empty string, or a nonzero duration); an absent or falsy detail leaves
the previously set field unchanged. -/
theorem updateStatus_spec :
    (∀ (st : OrchestratorState) (jobId filePath : String)
        (status : ConversionStatus) (details : UpdateDetails) (now : Nat),
        assocLookup st jobId = none →
        updateStatus st jobId filePath status details now =
          Except.error (UpdateError.batchNotFound jobId)) ∧
    (∀ (st : OrchestratorState) (jobId filePath : String)
        (status : ConversionStatus) (details : UpdateDetails) (now : Nat)
        (batch : BatchState),
        assocLookup st jobId = some batch →
        assocLookup batch.records filePath = none →
        updateStatus st jobId filePath status details now =
          Except.error (UpdateError.fileNotFound filePath)) ∧
    (∀ (st : OrchestratorState) (jobId filePath : String)
        (status : ConversionStatus) (details : UpdateDetails) (now : Nat)
        (batch : BatchState) (record : ConversionRecord),
        assocLookup st jobId = some batch →
        assocLookup batch.records filePath = some record →
        updateStatus st jobId filePath status details now =
          Except.ok (assocSet st jobId
            { batch with
                records := assocSet batch.records filePath
                  (applyUpdate record status details now) })) ∧
    (∀ (record : ConversionRecord) (status : ConversionStatus)
        (details : UpdateDetails) (now : Nat),
        (applyUpdate record status details now).startedAt =
          (if status = ConversionStatus.inProgress then some now else record.startedAt) ∧
        (applyUpdate record status details now).completedAt =
          (if isTerminal status then some now else record.completedAt) ∧
        (applyUpdate record status details now).error =
          (if truthyStr details.error then details.error else record.error) ∧
        (applyUpdate record status details now).outputPath =
          (if truthyStr details.outputPath then details.outputPath else record.outputPath) ∧
        (applyUpdate record status details now).stdout =
          (if truthyStr details.stdout then details.stdout else record.stdout) ∧
        (applyUpdate record status details now).stderr =
          (if truthyStr details.stderr then details.stderr else record.stderr) ∧
        (applyUpdate record status details now).duration =
          (if truthyNat details.duration then details.duration else record.duration)) := by
  refine ⟨?_, ?_, ?_, ?_⟩
  · intro st jobId filePath status details now h
    simp [updateStatus, h]
  · intro st jobId filePath status details now batch h1 h2
    simp [updateStatus, h1, h2]
  · intro st jobId filePath status details now batch record h1 h2
    simp [updateStatus, h1, h2]
  · intro record status details now
    exact ⟨rfl, rfl, rfl, rfl, rfl, rfl, rfl⟩

/-- C4 witness: the two error cases at concrete inputs, and the `startedAt`
stamp on a concrete `in-progress` update. -/
theorem updateStatus_spec_witness :
    updateStatus [] "job9" "/x.pdf" ConversionStatus.pending noDetails 0 =
      Except.error (UpdateError.batchNotFound "job9") ∧
    updateStatus demoState "job1" "/missing.pdf" ConversionStatus.pending noDetails 0 =
      Except.error (UpdateError.fileNotFound "/missing.pdf") ∧
    (applyUpdate (freshRecord "/r/a.pdf") ConversionStatus.inProgress noDetails 3).startedAt =
      some 3 :=
  ⟨updateStatus_spec.1 [] "job9" "/x.pdf" ConversionStatus.pending noDetails 0 (by decide),
   updateStatus_spec.2.1 demoState "job1" "/missing.pdf" ConversionStatus.pending noDetails 0
     { jobId := "job1", createdAt := 0, rootPath := "/r",
       records := [("/r/a.pdf", freshRecord "/r/a.pdf")] } (by decide) (by decide),
   by
     have h := (updateStatus_spec.2.2.2 (freshRecord "/r/a.pdf")
       ConversionStatus.inProgress noDetails 3).1
     rw [if_pos rfl] at h
     exact h⟩

/-- C5: exclusion matching semantics — the glob `*.tmp` matches `report.tmp`
but not `report.tmp.bak` (anchored), matching is case-insensitive, `*` stays
within one path segment (both on the concrete cross-segment example and in
general: a lone `*` matches exactly the separator-free strings), `?` matches
exactly one non-separator character, and a directory rule matches a path that
equals the pattern or starts with the pattern followed by `/`, so
`node_modules` excludes `node_modules/lib/index.js` but not
`my_node_modules/file.js`. -/
theorem exclusion_matching_semantics :
    matchGlobPattern "report.tmp" "*.tmp" = true ∧
    matchGlobPattern "report.tmp.bak" "*.tmp" = false ∧
    matchGlobPattern "REPORT.TMP" "*.tmp" = true ∧
    matchGlobPattern "sub/report.tmp" "*.tmp" = false ∧
    (∀ (fuel : Nat) (s : List Char),
        globGo (fuel+1) ['*'] s = s.all (fun c => c != '/')) ∧
    (∀ c : Char, globGo 2 ['?'] [c] = (c != '/')) ∧
    (∀ p : String, matchesRule p nodeModulesRule =
      (strStartsWith (lowerStr p) "node_modules/" || lowerStr p == "node_modules")) ∧
    matchesRule "node_modules/lib/index.js" nodeModulesRule = true ∧
    matchesRule "my_node_modules/file.js" nodeModulesRule = false := by
  refine ⟨by decide, by decide, by decide, by decide, globGo_star, ?_, ?_,
    by decide, by decide⟩
  · intro c
    show ((c != '/') && globGo 1 [] []) = (c != '/')
    rw [show globGo 1 [] [] = true from rfl, Bool.and_true]
  · intro p
    rfl

/-- C6: `set` followed immediately by `get` for the same root returns the
cached scan wrapping the identical result with `expiresAt` equal to the set
time plus the TTL (default 5 minutes = 300000 ms), and `get` on an entry
whose expiry has passed evicts it and returns null. -/
theorem cache_roundtrip_expiry_spec :
    defaultTtlMs = 300000 ∧
    (∀ (cache : ScanCache) (root : String) (result : ScanResultM)
        (now : Nat) (ttl : Option Nat),
        cacheGet (cacheSet cache root result now ttl) root now =
          (some { rootPath := pathNormalize root, result := result, scannedAt := now,
                  expiresAt := now + ttl.getD defaultTtlMs },
           cacheSet cache root result now ttl)) ∧
    (∀ (cache : ScanCache) (root : String) (now : Nat) (e : CachedScanM),
        assocLookup cache (pathNormalize root) = some e →
        now > e.expiresAt →
        cacheGet cache root now = (none, cacheErase cache (pathNormalize root))) := by
  refine ⟨rfl, ?_, ?_⟩
  · intro cache root result now ttl
    simp only [cacheGet, cacheSet, assocLookup_assocSet]
    rw [if_neg]
    omega
  · intro cache root now e hlook hexp
    simp only [cacheGet, hlook]
    rw [if_pos hexp]

/-- C6 witness: eviction of a concrete expired entry. -/
theorem cache_roundtrip_expiry_witness :
    assocLookup [("/a", rootCachedScan)] (pathNormalize "/a") = some rootCachedScan ∧
    2000 > rootCachedScan.expiresAt ∧
    cacheGet [("/a", rootCachedScan)] "/a" 2000 =
      (none, cacheErase [("/a", rootCachedScan)] (pathNormalize "/a")) :=
  ⟨by decide, by decide,
   cache_roundtrip_expiry_spec.2.2 [("/a", rootCachedScan)] "/a" 2000 rootCachedScan
     (by decide) (by decide)⟩

/-- C7: `invalidateForFile` keeps exactly the entries whose key is not a
leading substring of the normalized file path, returns the number of entries
removed, and on the concrete scenario removes the cache keyed at `/root` but
leaves the one keyed at `/other` untouched. -/
theorem invalidateForFile_spec :
    (∀ (cache : ScanCache) (filePath k : String) (v : CachedScanM),
        (k, v) ∈ (invalidateForFile cache filePath).2 ↔
          ((k, v) ∈ cache ∧ strStartsWith (pathNormalize filePath) k = false)) ∧
    (∀ (cache : ScanCache) (filePath : String),
        (invalidateForFile cache filePath).1 =
          (cache.filter (fun e => strStartsWith (pathNormalize filePath) e.1)).length) ∧
    (∀ (cache : ScanCache) (filePath : String),
        (invalidateForFile cache filePath).1 +
          ((invalidateForFile cache filePath).2).length = cache.length) ∧
    invalidateForFile [("/root", rootCachedScan), ("/other", otherCachedScan)]
        "/root/sub/file.pdf" = (1, [("/other", otherCachedScan)]) := by
  refine ⟨?_, ?_, ?_, by decide⟩
  · intro cache filePath k v
    simp [invalidateForFile, List.mem_filter]
  · intro cache filePath
    rfl
  · intro cache filePath
    simp only [invalidateForFile]
    exact length_filter_split cache _

/-- C8: `scan` fails exactly when the root is missing or is a file; on any
directory it returns a ScanResult; and a directory whose listing fails is
counted, contributes the read-failure message to `errors`, and its subtree is
skipped (the accumulator is otherwise unchanged). -/
theorem scan_error_spec :
    (∀ (opts : ScanOptionsM) (fuel : Nat) (rootPath : String) (root : Option FsNode),
        (∃ e, scan opts fuel rootPath root = Except.error e) ↔
          (root = none ∨ ∃ a b c d, root = some (FsNode.file a b c d))) ∧
    (∀ (opts : ScanOptionsM) (fuel : Nat) (rootPath : String)
        (re : Option String) (es : List (String × FsNode)),
        ∃ r, scan opts fuel rootPath (some (FsNode.dir re es)) = Except.ok r) ∧
    (∀ (opts : ScanOptionsM) (fuel : Nat) (dirPath msg : String)
        (entries : List (String × FsNode)) (depth : Nat) (acc : ScanResultM),
        (∀ m, opts.maxDepth = some m → depth ≤ m) →
        scanGo opts (fuel+1) dirPath (FsNode.dir (some msg) entries) depth acc =
          { acc with directoriesScanned := acc.directoriesScanned + 1,
                     errors := acc.errors ++
                       ["Failed to read directory " ++ dirPath ++ ": " ++ msg] }) := by
  refine ⟨?_, ?_, ?_⟩
  · intro opts fuel rootPath root
    cases root with
    | none => simp [scan]
    | some node =>
        cases node with
        | file a b c d => simp [scan]
        | dir re es => simp [scan]
  · intro opts fuel rootPath re es
    exact ⟨_, rfl⟩
  · intro opts fuel dirPath msg entries depth acc hdepth
    have hguard : (match opts.maxDepth with
        | some m => decide (m < depth)
        | none => false) = false := by
      cases hm : opts.maxDepth with
      | none => rfl
      | some m => exact decide_eq_false (Nat.not_lt.mpr (hdepth m hm))
    simp only [scanGo]
    split
    · rename_i hcond
      exact absurd (hguard.symm.trans hcond) Bool.false_ne_true
    · rfl

/-- C8 witness: a missing root fails, and a concrete unreadable directory
yields a returned error entry rather than an exception. -/
theorem scan_error_spec_witness :
    (∃ e, scan defaultScanOptions 5 "/missing" none = Except.error e) ∧
    scanGo defaultScanOptions 1 "/root"
        (FsNode.dir (some "EACCES: permission denied") []) 0 emptyScanResult =
      { emptyScanResult with
          directoriesScanned := 1,
          errors := ["Failed to read directory /root: EACCES: permission denied"] } := by
  constructor
  · exact (scan_error_spec.1 defaultScanOptions 5 "/missing" none).2 (Or.inl rfl)
  · have h := scan_error_spec.2.2 defaultScanOptions 0 "/root"
      "EACCES: permission denied" [] 0 emptyScanResult
      (fun m hm => by exact absurd hm (by simp [defaultScanOptions]))
    simpa using h

/-- C9: for an accepted file (size within the ceiling) `convertFile` always
produces a result: exit code 0 gives success with output path `<file>.md`;
a nonzero (or null) exit code gives failure with the error taken from stderr
when non-empty, else stdout when non-empty, else the generic exit-code
message; and a spawn error gives a failure result carrying its message. -/
theorem convertFile_result_spec :
    ∀ (file : DiscoveredFileM) (elapsed : Nat),
      file.size ≤ MAX_FILE_SIZE →
      (∀ stdout stderr,
        convertFile file (ProcOutcome.closed (some 0) stdout stderr) elapsed =
          ({ filePath := file.path, success := true,
             outputPath := some (file.path ++ ".md"), error := none,
             duration := elapsed, stdout := stdout, stderr := stderr }, true)) ∧
      (∀ code stdout stderr, code ≠ some 0 →
        convertFile file (ProcOutcome.closed code stdout stderr) elapsed =
          ({ filePath := file.path, success := false, outputPath := none,
             error := some (if stderr ≠ "" then stderr
                            else if stdout ≠ "" then stdout
                            else "Process exited with code " ++ codeString code),
             duration := elapsed, stdout := stdout, stderr := stderr }, true)) ∧
      (∀ msg stdout stderr,
        convertFile file (ProcOutcome.spawnFailed msg stdout stderr) elapsed =
          ({ filePath := file.path, success := false, outputPath := none,
             error := some msg, duration := elapsed,
             stdout := stdout, stderr := stderr }, true)) := by
  intro file elapsed hsize
  have hnot : ¬ (file.size > MAX_FILE_SIZE) := Nat.not_lt.mpr hsize
  refine ⟨?_, ?_, ?_⟩
  · intro stdout stderr
    simp [convertFile, hnot]
  · intro code stdout stderr hcode
    simp [convertFile, hnot, hcode]
  · intro msg stdout stderr
    simp [convertFile, hnot]

/-- C9 witness: a concrete success (exit 0) and a concrete failure (exit 1,
empty stderr, error falls back to stdout). -/
theorem convertFile_result_spec_witness :
    smallDemoFile.size ≤ MAX_FILE_SIZE ∧
    convertFile smallDemoFile (ProcOutcome.closed (some 0) "done" "") 3 =
      ({ filePath := "/docs/a.pdf", success := true,
         outputPath := some "/docs/a.pdf.md", error := none,
         duration := 3, stdout := "done", stderr := "" }, true) ∧
    convertFile smallDemoFile (ProcOutcome.closed (some 1) "boom" "") 4 =
      ({ filePath := "/docs/a.pdf", success := false, outputPath := none,
         error := some "boom", duration := 4, stdout := "boom", stderr := "" }, true) := by
  refine ⟨by decide, ?_, ?_⟩
  · have h := (convertFile_result_spec smallDemoFile 3 (by decide)).1 "done" ""
    simpa using h
  · have h := (convertFile_result_spec smallDemoFile 4 (by decide)).2.1
      (some 1) "boom" "" (by decide)
    simpa using h

/-- C10: `invalidateForFile` decides containment by raw string comparison on
normalized paths, not by path components: a cached entry keyed at `/root` is
removed and counted for the file `/rootother/file.pdf`, although `/root` is
not an ancestor directory of that file (the file path does not start with
`/root/`, only with `/root`). -/
theorem invalidateForFile_raw_string_semantics :
    invalidateForFile [("/root", rootCachedScan)] "/rootother/file.pdf" = (1, []) ∧
    pathNormalize "/rootother/file.pdf" = "/rootother/file.pdf" ∧
    strStartsWith "/rootother/file.pdf" "/root/" = false ∧
    strStartsWith "/rootother/file.pdf" "/root" = true := by
  exact ⟨by decide, by decide, by decide, by decide⟩
